import Mathlib

/-!
Shallow embedding of the KonamiController sequence matcher
(src/packages/controller/src/konami-controller.ts).

The controller keeps a target key sequence `code`, a cursor
`currentPosition`, a timeout duration, and a handle `timeoutRef` to the
single deferred-reset timer.  `timeoutRef` here models whether that timer
is currently pending (carrying its duration): `setTimeout` stores
`some duration`, `clearTimeout` (and the timer firing) yields `none`.
`attached` models whether the window keydown listener is registered
(`hostConnected` / `hostDisconnected`).  Emissions are the three
`CustomEvent` kinds dispatched to the host, in dispatch order.
-/

/-- The three notification kinds dispatched by the controller:
konami-progress (with its payload), konami-activated, konami-reset. -/
inductive Emission where
  | progress (position : Nat) (total : Nat)
  | activated
  | reset
deriving Repr, DecidableEq

/-- Boolean recogniser for progress notifications. -/
def Emission.isProgress : Emission → Bool
  | Emission.progress _ _ => true
  | _ => false

/-- Boolean recogniser for activated notifications. -/
def Emission.isActivated : Emission → Bool
  | Emission.activated => true
  | _ => false

/-- Boolean recogniser for reset notifications. -/
def Emission.isReset : Emission → Bool
  | Emission.reset => true
  | _ => false

/-- The mutable state of a KonamiController instance, together with the
listener-registration status of its window subscription. -/
structure KonamiState where
  code : List String
  currentPosition : Nat
  timeout : Nat
  timeoutRef : Option Nat
  attached : Bool
deriving Repr, DecidableEq

/-- The default ten-key sequence hard-coded in the constructor. -/
def defaultCode : List String :=
  ["ArrowUp", "ArrowUp", "ArrowDown", "ArrowDown",
   "ArrowLeft", "ArrowRight", "ArrowLeft", "ArrowRight", "b", "a"]

/-- Constructor body (konami-controller.ts lines 23-38).
`options?.code || defaultCode`: a supplied array is truthy in JS even when
empty, so only an absent code option falls back to the default; this is
`Option.getD`.  `options?.timeout || 2000`: a supplied 0 is falsy and also
falls back.  The cursor starts at 0 and no timer is pending; the keydown
listener is only registered later by `hostConnected`. -/
def mkState (codeOpt : Option (List String)) (timeoutOpt : Option Nat) : KonamiState :=
  { code := codeOpt.getD defaultCode
    currentPosition := 0
    timeout := match timeoutOpt with
      | some t => if t = 0 then 2000 else t
      | none => 2000
    timeoutRef := none
    attached := false }

/-- The constructor contains no validation and no throwing path, so
construction always succeeds.  It is wrapped in `Except` so that a
construction-time rejection would be expressible; the source never takes
such a path. -/
def construct (codeOpt : Option (List String)) (timeoutOpt : Option Nat) :
    Except String KonamiState :=
  Except.ok (mkState codeOpt timeoutOpt)

/-- `reset` (lines 103-112): remember whether a match was in progress
(cursor > 0), zero the cursor, cancel any pending timer, and emit
konami-reset exactly when a match was in progress. -/
def reset (s : KonamiState) : KonamiState × List Emission :=
  ({ s with currentPosition := 0, timeoutRef := none },
   if 0 < s.currentPosition then [Emission.reset] else [])

/-- Lines 80-90 of `handleKeydown`, the correct-key block: advance the
cursor by one, cancel the pending timer and schedule a fresh one for the
configured duration, and build the progress notification carrying the new
cursor and the sequence length. -/
def matchStep (s : KonamiState) : KonamiState × Emission :=
  ({ s with currentPosition := s.currentPosition + 1, timeoutRef := some s.timeout },
   Emission.progress (s.currentPosition + 1) s.code.length)

/-- `handleKeydown` (lines 68-98).  A repeat event returns immediately.
`this.code[this.currentPosition]` may be out of range (JS `undefined`),
modelled by the optional lookup; `e.key` is always a string, so against an
out-of-range lookup the inequality test `e.key !== expected` holds.  On a
wrong key, `reset` runs.  On a correct key the match block runs, and when
the cursor has reached the sequence length the controller emits
konami-activated and then calls `reset` (whose own emission, if any,
follows the activated one). -/
def handleKeydown (s : KonamiState) (key : String) (isRepeat : Bool) :
    KonamiState × List Emission :=
  if isRepeat then (s, [])
  else if some key ≠ s.code[s.currentPosition]? then reset s
  else
    let m := matchStep s
    if m.1.currentPosition = m.1.code.length then
      let r := reset m.1
      (r.1, m.2 :: Emission.activated :: r.2)
    else (m.1, [m.2])

/-- `hostConnected` (lines 59-61): register the window keydown listener. -/
def hostConnected (s : KonamiState) : KonamiState :=
  { s with attached := true }

/-- `hostDisconnected` (lines 63-66): remove the window keydown listener
and cancel any pending timer.  Nothing else is touched and nothing is
emitted. -/
def hostDisconnected (s : KonamiState) : KonamiState :=
  { s with attached := false, timeoutRef := none }

/-- The discrete events a controller instance can experience: a keydown on
the window, the deferred-reset timer deadline elapsing, and the host
connect / disconnect lifecycle callbacks. -/
inductive KEvent where
  | keydown (key : String) (isRepeat : Bool)
  | timerFire
  | connect
  | disconnect
deriving Repr, DecidableEq

/-- One event-loop turn.  A keydown reaches `handleKeydown` only while the
listener is attached.  The deferred callback `() => this.reset()` runs only
when the timer is still pending — `clearTimeout` prevents a cancelled
callback from ever running — and the timer is no longer pending once it has
fired (`reset` also clears the handle). -/
def step (s : KonamiState) : KEvent → KonamiState × List Emission
  | KEvent.keydown k r => if s.attached then handleKeydown s k r else (s, [])
  | KEvent.timerFire =>
      match s.timeoutRef with
      | some _ => reset s
      | none => (s, [])
  | KEvent.connect => (hostConnected s, [])
  | KEvent.disconnect => (hostDisconnected s, [])

/-- Process a list of events in order, concatenating the emissions. -/
def run (s : KonamiState) : List KEvent → KonamiState × List Emission
  | [] => (s, [])
  | e :: es =>
      let r1 := step s e
      let r2 := run r1.1 es
      (r2.1, r1.2 ++ r2.2)

example :
    (step (hostConnected (mkState none none)) (KEvent.keydown "ArrowUp" false)).2
      = [Emission.progress 1 10] := by decide

example :
    (step (hostConnected (mkState (some ["a"]) (some 500))) (KEvent.keydown "a" false)).2
      = [Emission.progress 1 1, Emission.activated, Emission.reset] := by decide

example :
    (run (hostConnected (mkState (some ["a", "b"]) (some 500)))
      [KEvent.keydown "a" false, KEvent.keydown "a" false]).2
      = [Emission.progress 1 2, Emission.reset] := by decide

/-! ### Characterisation of a single keydown turn -/

/-- An attached matcher fed a wrong non-repeat key runs the reset path:
cursor 0, no timer, one reset emission exactly when a match was in
progress. -/
theorem step_wrong_key (s : KonamiState) (k : String)
    (hAtt : s.attached = true)
    (hW : some k ≠ s.code[s.currentPosition]?) :
    step s (KEvent.keydown k false)
      = ({ s with currentPosition := 0, timeoutRef := none },
         if 0 < s.currentPosition then [Emission.reset] else []) := by
  simp [step, handleKeydown, reset, hAtt, hW]

/-- An attached matcher fed the expected key that does not complete the
sequence advances the cursor, schedules a fresh timer, and emits exactly
the progress notification. -/
theorem step_correct_mid (s : KonamiState) (k : String)
    (hAtt : s.attached = true)
    (hK : s.code[s.currentPosition]? = some k)
    (hFin : s.currentPosition + 1 ≠ s.code.length) :
    step s (KEvent.keydown k false)
      = ({ s with currentPosition := s.currentPosition + 1, timeoutRef := some s.timeout },
         [Emission.progress (s.currentPosition + 1) s.code.length]) := by
  simp [step, handleKeydown, matchStep, hAtt, hK, hFin]

/-- An attached matcher fed the expected key that completes the sequence
emits progress, activated, and — since the reset path runs with the cursor
at the positive sequence length — one reset, ending at cursor 0 with no
timer pending. -/
theorem step_correct_final (s : KonamiState) (k : String)
    (hAtt : s.attached = true)
    (hK : s.code[s.currentPosition]? = some k)
    (hFin : s.currentPosition + 1 = s.code.length) :
    step s (KEvent.keydown k false)
      = ({ s with currentPosition := 0, timeoutRef := none },
         [Emission.progress (s.currentPosition + 1) s.code.length,
          Emission.activated, Emission.reset]) := by
  have hne : s.code ≠ [] := by
    intro h
    rw [h] at hFin
    simp at hFin
  simp [step, handleKeydown, matchStep, reset, hAtt, hK, hFin, hne]

/-! ### Claim theorems -/

/-- C4: processing a key event whose isRepeat flag is true changes nothing
— cursor, timer and all other state are unchanged and no notification is
emitted — in every state of the matcher. -/
theorem C4_repeat_is_noop (s : KonamiState) (k : String) :
    step s (KEvent.keydown k true) = (s, []) := by
  simp [step, handleKeydown]

/-- C5: a non-repeat key event whose key differs from the expected key at
the cursor emits no notification when the cursor is 0 and exactly one
reset notification when the cursor is positive; in both cases the cursor
becomes 0 and the pending timer is cancelled, so the wrong key is consumed
without being re-matched against the start of the sequence (the cursor
ends at 0 even when the key equals the first key of the sequence). -/
theorem C5_wrong_key_resets (s : KonamiState) (k : String)
    (hAtt : s.attached = true)
    (hWrong : some k ≠ s.code[s.currentPosition]?) :
    (step s (KEvent.keydown k false)).2
        = (if 0 < s.currentPosition then [Emission.reset] else [])
      ∧ (step s (KEvent.keydown k false)).1.currentPosition = 0
      ∧ (step s (KEvent.keydown k false)).1.timeoutRef = none := by
  simp [step, handleKeydown, reset, hAtt, hWrong]

/-- Concrete state for the C5 witness: sequence [a, b] with one key
already matched and a timer pending; the wrong key fed below is "a", which
equals the first key of the sequence. -/
def c5State : KonamiState :=
  { code := ["a", "b"], currentPosition := 1, timeout := 500,
    timeoutRef := some 500, attached := true }

/-- Witness for C5 at a concrete input: feeding "a" (wrong, "b" expected;
equal to the sequence head) at cursor 1 emits one reset and zeroes the
cursor without re-matching. -/
theorem C5_wrong_key_resets_witness :
    c5State.attached = true
      ∧ some "a" ≠ c5State.code[c5State.currentPosition]?
      ∧ ((step c5State (KEvent.keydown "a" false)).2
            = (if 0 < c5State.currentPosition then [Emission.reset] else [])
          ∧ (step c5State (KEvent.keydown "a" false)).1.currentPosition = 0
          ∧ (step c5State (KEvent.keydown "a" false)).1.timeoutRef = none) :=
  ⟨rfl, by decide, C5_wrong_key_resets c5State "a" rfl (by decide)⟩

/-- C6: a non-repeat key event matching the expected key at the cursor
(necessarily below the sequence length, since the lookup succeeds) makes
the correct-key block advance the cursor by exactly one, replace the
pending timer with a fresh one for the configured timeout duration, and
build the progress notification with the new cursor as position and the
sequence length as total; the full event emits exactly one progress
notification, namely that one. -/
theorem C6_correct_key_advances (s : KonamiState) (k : String)
    (hAtt : s.attached = true)
    (hK : s.code[s.currentPosition]? = some k) :
    (matchStep s).1.currentPosition = s.currentPosition + 1
      ∧ (matchStep s).1.timeoutRef = some s.timeout
      ∧ (matchStep s).2 = Emission.progress (s.currentPosition + 1) s.code.length
      ∧ (step s (KEvent.keydown k false)).2.filter Emission.isProgress
          = [Emission.progress (s.currentPosition + 1) s.code.length] := by
  refine ⟨rfl, rfl, rfl, ?_⟩
  by_cases hFin : s.currentPosition + 1 = s.code.length
  · rw [step_correct_final s k hAtt hK hFin]
    simp [Emission.isProgress]
  · rw [step_correct_mid s k hAtt hK hFin]
    simp [Emission.isProgress]

/-- Concrete state for the C6 witness: fresh default-code matcher,
attached. -/
def c6State : KonamiState := hostConnected (mkState none none)

/-- Witness for C6 at a concrete input: the first ArrowUp of the default
sequence advances the cursor to 1, schedules a 2000 ms timer and emits the
single progress notification (1, 10). -/
theorem C6_correct_key_advances_witness :
    c6State.attached = true
      ∧ c6State.code[c6State.currentPosition]? = some "ArrowUp"
      ∧ ((matchStep c6State).1.currentPosition = c6State.currentPosition + 1
          ∧ (matchStep c6State).1.timeoutRef = some c6State.timeout
          ∧ (matchStep c6State).2
              = Emission.progress (c6State.currentPosition + 1) c6State.code.length
          ∧ (step c6State (KEvent.keydown "ArrowUp" false)).2.filter Emission.isProgress
              = [Emission.progress (c6State.currentPosition + 1) c6State.code.length]) :=
  ⟨rfl, by decide, C6_correct_key_advances c6State "ArrowUp" rfl (by decide)⟩

/-- C1 counterexample: completing a non-empty sequence does produce a
reset notification on the completing event.  For the one-key sequence
["a"], the completing keydown emits progress, then activated, then a
reset notification — `reset` is called with the cursor equal to the
sequence length, which is positive, so its konami-reset emission is not
suppressed.  This refutes the claim that no reset notification is emitted
on the completing event. -/
theorem C1_counterexample_reset_after_activation :
    (step (hostConnected (mkState (some ["a"]) (some 500))) (KEvent.keydown "a" false)).2
      = [Emission.progress 1 1, Emission.activated, Emission.reset] := by
  decide

/-- C1 amended: when a correct key event brings the cursor up to the
sequence length, the matcher emits the final progress notification, then
an activated notification, then — because the reset path runs while the
cursor equals the sequence length, which is positive — exactly one reset
notification; the cursor is zeroed and the timer cancelled. -/
theorem C1_completion_emits_activated_then_reset (s : KonamiState) (k : String)
    (hAtt : s.attached = true)
    (hK : s.code[s.currentPosition]? = some k)
    (hFin : s.currentPosition + 1 = s.code.length) :
    (step s (KEvent.keydown k false)).2
        = [Emission.progress s.code.length s.code.length,
           Emission.activated, Emission.reset]
      ∧ (step s (KEvent.keydown k false)).1.currentPosition = 0
      ∧ (step s (KEvent.keydown k false)).1.timeoutRef = none := by
  rw [step_correct_final s k hAtt hK hFin]
  simp [hFin]

/-- Concrete state for the C1 witness: attached matcher over the two-key
sequence [x, y] with the first key already matched. -/
def c1State : KonamiState :=
  { code := ["x", "y"], currentPosition := 1, timeout := 300,
    timeoutRef := some 300, attached := true }

/-- Witness for the amended C1 at a concrete input: feeding the final "y"
emits progress (2, 2), activated, and one reset, ending at cursor 0 with
no timer. -/
theorem C1_completion_emits_activated_then_reset_witness :
    c1State.attached = true
      ∧ c1State.code[c1State.currentPosition]? = some "y"
      ∧ c1State.currentPosition + 1 = c1State.code.length
      ∧ ((step c1State (KEvent.keydown "y" false)).2
            = [Emission.progress c1State.code.length c1State.code.length,
               Emission.activated, Emission.reset]
          ∧ (step c1State (KEvent.keydown "y" false)).1.currentPosition = 0
          ∧ (step c1State (KEvent.keydown "y" false)).1.timeoutRef = none) :=
  ⟨rfl, by decide, by decide,
   C1_completion_emits_activated_then_reset c1State "y" rfl (by decide) (by decide)⟩

/-- C2: the constructor performs no validation, so an explicitly supplied
empty sequence is not rejected — construction succeeds and the resulting
matcher keeps the empty sequence (an empty array is truthy in JS, so the
default is not substituted).  This contradicts the spec's fail-fast
requirement for empty sequences. -/
theorem C2_empty_sequence_not_rejected :
    construct (some []) none = Except.ok (mkState (some []) none)
      ∧ (mkState (some []) none).code = [] :=
  ⟨rfl, rfl⟩

/-- C9: teardown is idempotent and total — applying it twice equals
applying it once, it cancels any pending timer, it emits no notification,
it is a no-op on a never-attached freshly constructed matcher, and once
detached neither a keydown (the listener is removed) nor the elapsing of
the old timeout deadline (the timer is cancelled) changes the state or
emits anything. -/
theorem C9_teardown_idempotent_and_silent (s : KonamiState) :
    hostDisconnected (hostDisconnected s) = hostDisconnected s
      ∧ (hostDisconnected s).timeoutRef = none
      ∧ (step s KEvent.disconnect).2 = []
      ∧ (∀ codeOpt timeoutOpt,
          hostDisconnected (mkState codeOpt timeoutOpt) = mkState codeOpt timeoutOpt)
      ∧ (∀ k r, step (hostDisconnected s) (KEvent.keydown k r) = (hostDisconnected s, []))
      ∧ step (hostDisconnected s) KEvent.timerFire = (hostDisconnected s, []) :=
  ⟨rfl, rfl, rfl, fun _ _ => rfl, fun _ _ => rfl, rfl⟩

/-- Unfolding lemma for `run` on a cons. -/
theorem run_cons (s : KonamiState) (e : KEvent) (es : List KEvent) :
    run s (e :: es)
      = ((run (step s e).1 es).1, (step s e).2 ++ (run (step s e).1 es).2) :=
  rfl

/-- Every event-loop turn leaves the state in one of five shapes: unchanged,
attached, detached, reset (cursor 0, no timer), or advanced by one matched
key (with the matched position necessarily inside the sequence). -/
theorem step_state_cases (s : KonamiState) (e : KEvent) :
    (step s e).1 = s
    ∨ (step s e).1 = hostConnected s
    ∨ (step s e).1 = hostDisconnected s
    ∨ (step s e).1 = { s with currentPosition := 0, timeoutRef := none }
    ∨ ((step s e).1
          = { s with currentPosition := s.currentPosition + 1, timeoutRef := some s.timeout }
        ∧ s.currentPosition + 1 < s.code.length) := by
  cases e with
  | keydown k r =>
    by_cases hAtt : s.attached = true
    · cases r with
      | true =>
        left
        simp [step, handleKeydown, hAtt]
      | false =>
        by_cases hW : some k ≠ s.code[s.currentPosition]?
        · right; right; right; left
          rw [step_wrong_key s k hAtt hW]
        · push_neg at hW
          have hK : s.code[s.currentPosition]? = some k := hW.symm
          have hlt : s.currentPosition < s.code.length :=
            (List.getElem?_eq_some.mp hK).1
          by_cases hFin : s.currentPosition + 1 = s.code.length
          · right; right; right; left
            rw [step_correct_final s k hAtt hK hFin]
          · right; right; right; right
            exact ⟨by rw [step_correct_mid s k hAtt hK hFin],
              Nat.lt_of_le_of_ne (Nat.succ_le_of_lt hlt) hFin⟩
    · left
      simp [step, hAtt]
  | timerFire =>
    cases htr : s.timeoutRef with
    | some w =>
      right; right; right; left
      simp [step, htr, reset]
    | none =>
      left
      simp [step, htr]
  | connect => right; left; rfl
  | disconnect => right; right; left; rfl

/-- The target sequence is configured once and never mutated: no event
changes `code`. -/
theorem step_preserves_code (s : KonamiState) (e : KEvent) :
    (step s e).1.code = s.code := by
  rcases step_state_cases s e with h | h | h | h | ⟨h, -⟩ <;> rw [h] <;> rfl

/-- The configured timeout duration is never mutated either. -/
theorem step_preserves_timeout (s : KonamiState) (e : KEvent) :
    (step s e).1.timeout = s.timeout := by
  rcases step_state_cases s e with h | h | h | h | ⟨h, -⟩ <;> rw [h] <;> rfl

/-- Feeding the not-yet-matched suffix of the target sequence, in order and
without repeats, to an attached matcher whose cursor counts the matched
prefix: one progress notification per key with positions counting up from
the prefix length, then an activated notification and the trailing reset
emitted by the reset path, ending at cursor 0 with no timer pending. -/
theorem run_feed (rest : List String) :
    ∀ (s : KonamiState) (pre : List String),
      s.attached = true → s.code = pre ++ rest → s.currentPosition = pre.length →
      rest ≠ [] →
      run s (rest.map (fun k => KEvent.keydown k false))
        = ({ s with currentPosition := 0, timeoutRef := none },
           (List.range rest.length).map
             (fun i => Emission.progress (pre.length + i + 1) s.code.length)
           ++ [Emission.activated, Emission.reset]) := by
  induction rest with
  | nil =>
    intro s pre _ _ _ hne
    cases hne rfl
  | cons k rest ih =>
    intro s pre hAtt hCode hPos _
    have hK : s.code[s.currentPosition]? = some k := by
      rw [hCode, hPos, List.getElem?_append_right (Nat.le_refl pre.length)]
      simp
    by_cases hrest : rest = []
    · subst hrest
      have hFin : s.currentPosition + 1 = s.code.length := by
        rw [hPos, hCode]
        simp
      rw [List.map_cons, List.map_nil, run_cons, step_correct_final s k hAtt hK hFin]
      simp [run, hPos, List.range_succ, List.range_zero]
    · have hFin : s.currentPosition + 1 ≠ s.code.length := by
        rw [hPos, hCode]
        simp only [List.length_append, List.length_cons]
        have : rest.length ≠ 0 := fun h0 => hrest (List.eq_nil_of_length_eq_zero h0)
        omega
      rw [List.map_cons, run_cons, step_correct_mid s k hAtt hK hFin]
      dsimp only
      have ihc := ih
        { s with currentPosition := s.currentPosition + 1, timeoutRef := some s.timeout }
        (pre ++ [k]) hAtt
        (show s.code = (pre ++ [k]) ++ rest by rw [hCode]; simp)
        (show s.currentPosition + 1 = (pre ++ [k]).length by simp [hPos])
        hrest
      rw [ihc]
      have harith : ∀ i : Nat, pre.length + 1 + i + 1 = pre.length + (i + 1) + 1 := by
        omega
      simp [hPos, List.range_succ_eq_map, List.map_map, Function.comp, harith,
        List.length_append]

/-- In the emission stream of a completed feed, the progress notifications
are exactly the leading map and nothing after the activated notification is
a progress notification. -/
theorem progress_emissions_filter (N L : Nat) :
    (((List.range N).map (fun i => Emission.progress (i + 1) L))
        ++ [Emission.activated, Emission.reset]).filter Emission.isProgress
      = (List.range N).map (fun i => Emission.progress (i + 1) L) := by
  rw [List.filter_append, List.filter_map]
  have hcomp : (Emission.isProgress ∘ fun i => Emission.progress (i + 1) L)
      = fun _ => true := by
    funext i
    rfl
  rw [hcomp, List.filter_true]
  simp [List.filter, Emission.isProgress]

/-- In the emission stream of a completed feed there is exactly one
activated notification. -/
theorem activated_emissions_filter (N L : Nat) :
    (((List.range N).map (fun i => Emission.progress (i + 1) L))
        ++ [Emission.activated, Emission.reset]).filter Emission.isActivated
      = [Emission.activated] := by
  rw [List.filter_append, List.filter_map]
  have hcomp : (Emission.isActivated ∘ fun i => Emission.progress (i + 1) L)
      = fun _ => false := by
    funext i
    rfl
  rw [hcomp, List.filter_false]
  simp [List.filter, Emission.isActivated]

/-- C3: feeding exactly the keys of a non-empty sequence, in order and with
isRepeat = false, to a freshly constructed attached matcher emits one
progress notification per key — N of them, in order, with positions
1..N and total N, all preceding the activated notification (the complete
stream is those N progress notifications, then activated, then the
trailing reset of the silent-reset path) — emits exactly one activated
notification, and leaves the cursor at 0. -/
theorem C3_feed_whole_sequence (code : List String) (t : Nat) (h : code ≠ []) :
    (run (hostConnected (mkState (some code) (some t)))
        (code.map (fun k => KEvent.keydown k false))).2
      = (List.range code.length).map
          (fun i => Emission.progress (i + 1) code.length)
        ++ [Emission.activated, Emission.reset]
    ∧ ((run (hostConnected (mkState (some code) (some t)))
          (code.map (fun k => KEvent.keydown k false))).2.filter
            Emission.isProgress).length = code.length
    ∧ ((run (hostConnected (mkState (some code) (some t)))
          (code.map (fun k => KEvent.keydown k false))).2.filter
            Emission.isActivated).length = 1
    ∧ (run (hostConnected (mkState (some code) (some t)))
        (code.map (fun k => KEvent.keydown k false))).1.currentPosition = 0 := by
  have hcode : (hostConnected (mkState (some code) (some t))).code = code := rfl
  have hr := run_feed code (hostConnected (mkState (some code) (some t))) []
    rfl (by simp [hostConnected, mkState]) rfl h
  refine ⟨?_, ?_, ?_, ?_⟩
  · rw [hr]
    dsimp only
    rw [hcode]
    simp
  · rw [hr]
    dsimp only
    rw [hcode]
    simp only [List.length_nil, Nat.zero_add]
    rw [progress_emissions_filter]
    simp
  · rw [hr]
    dsimp only
    rw [hcode]
    simp only [List.length_nil, Nat.zero_add]
    rw [activated_emissions_filter]
    rfl
  · rw [hr]

/-- Witness for C3 at a concrete input: the two-key sequence [a, b] fed in
order emits progress (1, 2), progress (2, 2), activated (and the trailing
reset), with the cursor back at 0. -/
theorem C3_feed_whole_sequence_witness :
    (["a", "b"] : List String) ≠ []
      ∧ ((run (hostConnected (mkState (some ["a", "b"]) (some 100)))
            ((["a", "b"] : List String).map (fun k => KEvent.keydown k false))).2
          = (List.range (["a", "b"] : List String).length).map
              (fun i => Emission.progress (i + 1) (["a", "b"] : List String).length)
            ++ [Emission.activated, Emission.reset]
        ∧ ((run (hostConnected (mkState (some ["a", "b"]) (some 100)))
              ((["a", "b"] : List String).map (fun k => KEvent.keydown k false))).2.filter
                Emission.isProgress).length = (["a", "b"] : List String).length
        ∧ ((run (hostConnected (mkState (some ["a", "b"]) (some 100)))
              ((["a", "b"] : List String).map (fun k => KEvent.keydown k false))).2.filter
                Emission.isActivated).length = 1
        ∧ (run (hostConnected (mkState (some ["a", "b"]) (some 100)))
            ((["a", "b"] : List String).map (fun k => KEvent.keydown k false))).1.currentPosition
            = 0) :=
  ⟨by decide, C3_feed_whole_sequence ["a", "b"] 100 (by decide)⟩

/-! ### Reachable-state invariants -/

/-- Timer-liveness invariant: a deferred-reset timer is pending only when
a match is in progress (cursor > 0). -/
def TimerInv (s : KonamiState) : Prop :=
  s.timeoutRef.isSome = true → 0 < s.currentPosition

/-- Every event-loop turn preserves the timer-liveness invariant. -/
theorem timerInv_step (s : KonamiState) (e : KEvent) (h : TimerInv s) :
    TimerInv (step s e).1 := by
  rcases step_state_cases s e with hc | hc | hc | hc | ⟨hc, -⟩ <;> intro hs <;>
      rw [hc] at hs ⊢
  · exact h hs
  · exact h hs
  · simp [hostDisconnected] at hs
  · simp at hs
  · exact Nat.succ_pos _

/-- The timer-liveness invariant holds along every event trace. -/
theorem timerInv_run (evs : List KEvent) :
    ∀ s : KonamiState, TimerInv s → TimerInv (run s evs).1 := by
  induction evs with
  | nil => exact fun s h => h
  | cons e es ih => exact fun s h => ih (step s e).1 (timerInv_step s e h)

/-- Cursor-range invariant: the cursor stays strictly below the sequence
length between fully processed events. -/
def CursorInv (s : KonamiState) : Prop :=
  s.currentPosition < s.code.length

/-- Every event-loop turn preserves the cursor-range invariant. -/
theorem cursorInv_step (s : KonamiState) (e : KEvent) (h : CursorInv s) :
    CursorInv (step s e).1 := by
  show (step s e).1.currentPosition < (step s e).1.code.length
  rcases step_state_cases s e with hc | hc | hc | hc | ⟨hc, hlt⟩ <;> rw [hc]
  · exact h
  · exact h
  · exact h
  · exact Nat.lt_of_le_of_lt (Nat.zero_le _) h
  · exact hlt

/-- The cursor-range invariant holds along every event trace. -/
theorem cursorInv_run (evs : List KEvent) :
    ∀ s : KonamiState, CursorInv s → CursorInv (run s evs).1 := by
  induction evs with
  | nil => exact fun s h => h
  | cons e es ih => exact fun s h => ih (step s e).1 (cursorInv_step s e h)

/-- The target sequence is never mutated along any event trace. -/
theorem run_preserves_code (evs : List KEvent) :
    ∀ s : KonamiState, (run s evs).1.code = s.code := by
  induction evs with
  | nil => intro s; rfl
  | cons e es ih => exact fun s => (ih (step s e).1).trans (step_preserves_code s e)

/-- C7: after any sequence of events from construction, a deferred-reset
timer is pending only when the cursor is positive (the single `timeoutRef`
slot, cleared before every replacement, realises the at-most-one-timer
ownership of the source), and whenever a timer is pending its uncancelled
firing emits exactly one reset notification, zeroes the cursor, and leaves
no timer pending. -/
theorem C7_pending_timer_invariant (codeOpt : Option (List String))
    (timeoutOpt : Option Nat) (evs : List KEvent) :
    ((run (mkState codeOpt timeoutOpt) evs).1.timeoutRef.isSome = true →
        0 < (run (mkState codeOpt timeoutOpt) evs).1.currentPosition)
      ∧ ((run (mkState codeOpt timeoutOpt) evs).1.timeoutRef.isSome = true →
          (step (run (mkState codeOpt timeoutOpt) evs).1 KEvent.timerFire).2
              = [Emission.reset]
            ∧ (step (run (mkState codeOpt timeoutOpt) evs).1
                KEvent.timerFire).1.currentPosition = 0
            ∧ (step (run (mkState codeOpt timeoutOpt) evs).1
                KEvent.timerFire).1.timeoutRef = none) := by
  have hinv : TimerInv (run (mkState codeOpt timeoutOpt) evs).1 :=
    timerInv_run evs (mkState codeOpt timeoutOpt) (fun hs => by simp [mkState] at hs)
  refine ⟨hinv, fun hs => ?_⟩
  obtain ⟨w, hw⟩ := Option.isSome_iff_exists.mp hs
  have h0 : 0 < (run (mkState codeOpt timeoutOpt) evs).1.currentPosition := hinv hs
  refine ⟨?_, ?_, ?_⟩ <;> simp [step, hw, reset, h0]

/-- Witness for C7 at a concrete input: after connecting and matching the
first ArrowUp of the default sequence, a timer is pending, and firing it
emits one reset, zeroes the cursor and clears the timer. -/
theorem C7_pending_timer_invariant_witness :
    (run (mkState none none)
        [KEvent.connect, KEvent.keydown "ArrowUp" false]).1.timeoutRef.isSome = true
      ∧ ((step (run (mkState none none)
            [KEvent.connect, KEvent.keydown "ArrowUp" false]).1 KEvent.timerFire).2
            = [Emission.reset]
          ∧ (step (run (mkState none none)
              [KEvent.connect, KEvent.keydown "ArrowUp" false]).1
                KEvent.timerFire).1.currentPosition = 0
          ∧ (step (run (mkState none none)
              [KEvent.connect, KEvent.keydown "ArrowUp" false]).1
                KEvent.timerFire).1.timeoutRef = none) :=
  ⟨by decide,
   (C7_pending_timer_invariant none none
      [KEvent.connect, KEvent.keydown "ArrowUp" false]).2 (by decide)⟩

/-- C8: for a non-empty configured sequence, after every fully processed
event trace the sequence is unchanged and the cursor lies strictly below
its length (hence in [0, N) with N the sequence length); the cursor can
reach N only transiently inside the correct-key block of a single event,
and even there it never exceeds N. -/
theorem C8_cursor_below_length (code : List String) (timeoutOpt : Option Nat)
    (h : code ≠ []) (evs : List KEvent) :
    (run (mkState (some code) timeoutOpt) evs).1.code = code
      ∧ (run (mkState (some code) timeoutOpt) evs).1.currentPosition
          < (run (mkState (some code) timeoutOpt) evs).1.code.length
      ∧ (∀ k, (run (mkState (some code) timeoutOpt) evs).1.code[
            (run (mkState (some code) timeoutOpt) evs).1.currentPosition]? = some k →
          (matchStep (run (mkState (some code) timeoutOpt) evs).1).1.currentPosition
            ≤ (run (mkState (some code) timeoutOpt) evs).1.code.length) := by
  refine ⟨run_preserves_code evs (mkState (some code) timeoutOpt), ?_, ?_⟩
  · exact cursorInv_run evs (mkState (some code) timeoutOpt)
      (show (0 : Nat) < code.length from List.length_pos.mpr h)
  · exact fun k hk => Nat.succ_le_of_lt (List.getElem?_eq_some.mp hk).1

/-- Witness for C8 at a concrete input: connecting and matching the first
key of [a, b] leaves the sequence unchanged and the cursor at 1 < 2. -/
theorem C8_cursor_below_length_witness :
    (["a", "b"] : List String) ≠ []
      ∧ (run (mkState (some ["a", "b"]) none)
            [KEvent.connect, KEvent.keydown "a" false]).1.code = ["a", "b"]
      ∧ (run (mkState (some ["a", "b"]) none)
            [KEvent.connect, KEvent.keydown "a" false]).1.currentPosition
          < (run (mkState (some ["a", "b"]) none)
              [KEvent.connect, KEvent.keydown "a" false]).1.code.length :=
  ⟨by decide,
   (C8_cursor_below_length ["a", "b"] none (by decide)
      [KEvent.connect, KEvent.keydown "a" false]).1,
   (C8_cursor_below_length ["a", "b"] none (by decide)
      [KEvent.connect, KEvent.keydown "a" false]).2.1⟩

/-- With the empty sequence, every single event keeps the inert shape —
empty code, cursor 0, no timer — and emits nothing: a non-repeat keydown
always takes the wrong-key path (the lookup at cursor 0 in an empty list
is `undefined`) with cursor 0, so even its reset is silent. -/
theorem empty_code_step (s : KonamiState) (e : KEvent)
    (h1 : s.code = []) (h2 : s.currentPosition = 0) (h3 : s.timeoutRef = none) :
    (step s e).1.code = [] ∧ (step s e).1.currentPosition = 0
      ∧ (step s e).1.timeoutRef = none ∧ (step s e).2 = [] := by
  cases e with
  | keydown k r =>
    by_cases hAtt : s.attached = true
    · cases r with
      | true => simp [step, handleKeydown, hAtt, h1, h2, h3]
      | false =>
        have hW : some k ≠ s.code[s.currentPosition]? := by
          rw [h1]
          simp
        rw [step_wrong_key s k hAtt hW]
        simp [h1, h2]
    · simp [step, hAtt, h1, h2, h3]
  | timerFire => simp [step, h3, h1, h2]
  | connect => simp [step, hostConnected, h1, h2, h3]
  | disconnect => simp [step, hostDisconnected, h1, h2]

/-- Along any event trace from an inert empty-code state, the cursor stays
at 0 and nothing is ever emitted. -/
theorem empty_code_run (evs : List KEvent) :
    ∀ s : KonamiState, s.code = [] → s.currentPosition = 0 → s.timeoutRef = none →
      (run s evs).1.currentPosition = 0 ∧ (run s evs).2 = [] := by
  induction evs with
  | nil => exact fun s _ h2 _ => ⟨h2, rfl⟩
  | cons e es ih =>
    intro s h1 h2 h3
    obtain ⟨g1, g2, g3, g4⟩ := empty_code_step s e h1 h2 h3
    obtain ⟨r1, r2⟩ := ih (step s e).1 g1 g2 g3
    refine ⟨r1, ?_⟩
    show (step s e).2 ++ (run (step s e).1 es).2 = []
    rw [g4, r2]
    rfl

/-- C10: an explicitly supplied empty sequence is kept by the constructor
(not replaced by the default, since only an absent option falls back), and
for such a matcher every event leaves the cursor at 0 and emits no
notification of any kind — in particular activation is unreachable. -/
theorem C10_empty_sequence_inert (timeoutOpt : Option Nat) (evs : List KEvent) :
    (mkState (some []) timeoutOpt).code = []
      ∧ (run (hostConnected (mkState (some []) timeoutOpt)) evs).2 = []
      ∧ (run (hostConnected (mkState (some []) timeoutOpt)) evs).1.currentPosition = 0 := by
  obtain ⟨r1, r2⟩ :=
    empty_code_run evs (hostConnected (mkState (some []) timeoutOpt)) rfl rfl rfl
  exact ⟨rfl, r2, r1⟩
